import Mathlib

/-!
Verification of the mesh-to-image projection engine of kwiver
(arrows/core/render_mesh_depth_map.{h,cxx} and
arrows/core/applets/texture_from_pointcloud.cxx).

Scalars are modelled as exact rationals; the `+infinity` sentinel used by the
depth buffers is modelled by an explicit extended type `EDouble`.
-/

/-- Extended scalar: either the `+infinity` sentinel used to initialize depth
and height buffers, or a finite value (modelled exactly as a rational). -/
inductive EDouble where
  | inf : EDouble
  | fin : ℚ → EDouble
deriving DecidableEq

/-- The strict comparison used by the C++ depth test `depth < depth_img(x, y)`:
a finite candidate is below the `+infinity` sentinel, finite values compare as
rationals, and nothing is below a finite value when the candidate is infinite. -/
def EDouble.lt : EDouble → EDouble → Bool
  | .inf, _ => false
  | .fin _, .inf => true
  | .fin a, .fin b => decide (a < b)

/-- Binary minimum on extended scalars, phrased through the depth test: keep the
candidate `b` exactly when the depth test `b < a` would fire. -/
def dmin (a b : EDouble) : EDouble := if EDouble.lt b a then b else a

/-- A 2D point (projected vertex position, in image or texture space). -/
structure Vec2 where
  x : ℚ
  y : ℚ
deriving DecidableEq

/-- A 3D vector, used for the plane-equation cross product. -/
structure V3 where
  x : ℚ
  y : ℚ
  z : ℚ
deriving DecidableEq

/-- Cross product of two 3D vectors (Eigen's `b1.cross(b2)`). -/
def V3.cross (a b : V3) : V3 :=
  ⟨a.y * b.z - a.z * b.y, a.z * b.x - a.x * b.z, a.x * b.y - a.y * b.x⟩

/-- A raster buffer: a fixed width/height grid of extended scalars.  The payload
is a total function on integer coordinates; the rendering code only ever reads
and writes coordinates inside `[0, width) × [0, height)`. -/
structure ImageBuf where
  width : Nat
  height : Nat
  data : Int → Int → EDouble

/-- Write one pixel of a buffer. -/
def ImageBuf.set (img : ImageBuf) (x y : Int) (v : EDouble) : ImageBuf :=
  { img with data := fun i j => if i = x ∧ j = y then v else img.data i j }

/-- A fresh buffer with every pixel initialized to the `+infinity` sentinel
(the explicit initialization loops of `render_mesh_depth_map` and
`render_mesh_height_map`). -/
def initBuf (w h : Nat) : ImageBuf := ⟨w, h, fun _ _ => .inf⟩

/-- Inclusive range of integers `[a, b]`, the x-loop `for (x = min_x; x <= max_x; ++x)`. -/
def intRange (a b : Int) : List Int :=
  (List.range (b + 1 - a).toNat).map (fun (k : Nat) => a + (k : Int))

/-- Floor of a rational as an integer (used only by the scan-coverage model). -/
def qfloor (q : ℚ) : Int := Int.fdiv q.num q.den

/-- Ceiling of a rational as an integer (used only by the scan-coverage model). -/
def qceil (q : ℚ) : Int := -(qfloor (-q))

/-- Barycentric point-in-triangle test over exact rationals, used by the
scan-coverage model to decide which integer pixels a triangle covers. -/
def insideTri (v1 v2 v3 : Vec2) (px py : ℚ) : Bool :=
  let d := (v2.y - v3.y) * (v1.x - v3.x) + (v3.x - v2.x) * (v1.y - v3.y)
  let u := ((v2.y - v3.y) * (px - v3.x) + (v3.x - v2.x) * (py - v3.y)) / d
  let v := ((v3.y - v1.y) * (px - v3.x) + (v1.x - v3.x) * (py - v3.y)) / d
  decide (0 ≤ u ∧ 0 ≤ v ∧ u + v ≤ 1)

/-- One scanline of coverage: the first and last covered integer column of row
`y` within the horizontal bounding range, or `none` when the row is empty. -/
def covRow (v1 v2 v3 : Vec2) (y xlo xhi : Int) : Option (Int × Int) :=
  match (intRange xlo xhi).filter (fun x => insideTri v1 v2 v3 (Int.cast x) (Int.cast y)) with
  | [] => none
  | x :: xs => some (x, xs.foldl max x)

/-- Modelled from the spec: the Scan Converter (`triangle_scan_iterator`, spec
section 4.1) is not among the provided sources; per the spec it yields, for each
integer scanline the triangle covers, the inclusive integer column span covered
at that row, and a degenerate (zero-area, collinear-vertex) triangle yields an
empty coverage set.  Rows are produced in increasing `y` order over the
triangle's bounding box. -/
def scan_coverage (v1 v2 v3 : Vec2) : List (Int × Int × Int) :=
  let nz := (v2.x - v1.x) * (v3.y - v1.y) - (v2.y - v1.y) * (v3.x - v1.x)
  if nz = 0 then []
  else
    let ylo := qfloor (min v1.y (min v2.y v3.y))
    let yhi := qceil (max v1.y (max v2.y v3.y))
    let xlo := qfloor (min v1.x (min v2.x v3.x))
    let xhi := qceil (max v1.x (max v2.x v3.x))
    (intRange ylo yhi).filterMap (fun y =>
      (covRow v1 v2 v3 y xlo xhi).map (fun se => (y, se.1, se.2)))

/-- The plane normal `n = b1.cross(b2)` of `render_triangle`, built from the two
edge vectors `(x, y, attribute)` rooted at `v1`. -/
def plane_n (v1 v2 v3 : Vec2) (a1 a2 a3 : ℚ) : V3 :=
  V3.cross ⟨v2.x - v1.x, v2.y - v1.y, a2 - a1⟩ ⟨v3.x - v1.x, v3.y - v1.y, a3 - a1⟩

/-- Plane coefficient `A = -n.x/n.z` of `render_triangle`. -/
def planeA (v1 v2 v3 : Vec2) (a1 a2 a3 : ℚ) : ℚ :=
  -(plane_n v1 v2 v3 a1 a2 a3).x / (plane_n v1 v2 v3 a1 a2 a3).z

/-- Plane coefficient `B = -n.y/n.z` of `render_triangle`. -/
def planeB (v1 v2 v3 : Vec2) (a1 a2 a3 : ℚ) : ℚ :=
  -(plane_n v1 v2 v3 a1 a2 a3).y / (plane_n v1 v2 v3 a1 a2 a3).z

/-- Plane coefficient `C = (v1.x*n.x + v1.y*n.y + a1*n.z) / n.z` of `render_triangle`. -/
def planeC (v1 v2 v3 : Vec2) (a1 a2 a3 : ℚ) : ℚ :=
  (v1.x * (plane_n v1 v2 v3 a1 a2 a3).x + v1.y * (plane_n v1 v2 v3 a1 a2 a3).y
    + a1 * (plane_n v1 v2 v3 a1 a2 a3).z) / (plane_n v1 v2 v3 a1 a2 a3).z

/-- The interpolated attribute at pixel `(x, y)`: `new_i + A*x` with `new_i = B*y + C`. -/
def planeEval (v1 v2 v3 : Vec2) (a1 a2 a3 : ℚ) (x y : ℚ) : ℚ :=
  planeB v1 v2 v3 a1 a2 a3 * y + planeC v1 v2 v3 a1 a2 a3 + planeA v1 v2 v3 a1 a2 a3 * x

/-- The depth-test-and-write of `render_triangle`: write `depth` at `(x, y)` iff
it is strictly below the stored value. -/
def depthTestWrite (buf : ImageBuf) (x y : Int) (d : ℚ) : ImageBuf :=
  if EDouble.lt (.fin d) (buf.data x y) then buf.set x y (.fin d) else buf

/-- The inner x-loop of the depth-only `render_triangle` over one scanline. -/
def renderRow (A B C : ℚ) (y : Int) (xs : List Int) (buf : ImageBuf) : ImageBuf :=
  xs.foldl (fun b x => depthTestWrite b x y (B * (y : ℚ) + C + A * (x : ℚ))) buf

/-- One iteration of the scanline loop of the depth-only `render_triangle`:
skip the row when it lies outside `[0, height)`, otherwise clamp its column
span to `[0, width-1]` and run the inner x-loop. -/
def rowsStep (W H : Nat) (A B C : ℚ) (buf : ImageBuf) (r : Int × Int × Int) : ImageBuf :=
  if r.1 < 0 ∨ (H : Int) ≤ r.1 then buf
  else renderRow A B C r.1 (intRange (max 0 r.2.1) (min ((W : Int) - 1) r.2.2)) buf

/-- Depth-only `render_triangle` (render_mesh_depth_map.cxx, lines 171-203):
fit the depth plane, then for every covered scanline inside the image clamp the
column span to `[0, width-1]` and run the depth test at every pixel. -/
def render_triangle (v1 v2 v3 : Vec2) (d1 d2 d3 : ℚ) (depth_img : ImageBuf) : ImageBuf :=
  (scan_coverage v1 v2 v3).foldl
    (rowsStep depth_img.width depth_img.height (planeA v1 v2 v3 d1 d2 d3)
      (planeB v1 v2 v3 d1 d2 d3) (planeC v1 v2 v3 d1 d2 d3))
    depth_img

/-- Does row `r` of the scan coverage, clamped to a `W × H` image, cover pixel
`(i, j)`?  This is the exact guard-plus-clamp discipline of the scanline loop. -/
def rowCovers (W H : Nat) (r : Int × Int × Int) (i j : Int) : Bool :=
  decide (r.1 = j ∧ 0 ≤ j ∧ j < (H : Int) ∧ max 0 r.2.1 ≤ i ∧ i ≤ min ((W : Int) - 1) r.2.2)

/-- Does the triangle `v1 v2 v3`, rendered into a `W × H` image, touch pixel
`(i, j)`? -/
def triCovers (W H : Nat) (v1 v2 v3 : Vec2) (i j : Int) : Bool :=
  (scan_coverage v1 v2 v3).any (fun r => rowCovers W H r i j)

/-- A triangle submission for the depth-only compositor: projected 2D vertices
with per-vertex depths. -/
structure Tri where
  v1 : Vec2
  v2 : Vec2
  v3 : Vec2
  d1 : ℚ
  d2 : ℚ
  d3 : ℚ
deriving DecidableEq

/-- Render a finite sequence of triangles into one depth buffer, in submission
order (the per-face loop of `render_mesh_depth_map`). -/
def render_triangles (ts : List Tri) (buf : ImageBuf) : ImageBuf :=
  ts.foldl (fun b t => render_triangle t.v1 t.v2 t.v3 t.d1 t.d2 t.d3 b) buf

/-- The depth triangle `t` contributes at pixel `(i, j)` of a `W × H` buffer:
its interpolated plane depth when it covers the pixel, nothing otherwise. -/
def contrib (W H : Nat) (t : Tri) (i j : Int) : Option ℚ :=
  if triCovers W H t.v1 t.v2 t.v3 i j then
    some (planeEval t.v1 t.v2 t.v3 t.d1 t.d2 t.d3 (i : ℚ) (j : ℚ))
  else none

/-- Minimum of a list of contributed depths, `+infinity` when there are none. -/
def minDepth (ds : List ℚ) : EDouble := ds.foldl (fun c d => dmin c (.fin d)) .inf

/-- The depth-test-and-write of the two-buffer `render_triangle` overloads:
when the interpolated depth `d` beats the stored depth, write `d` into the
depth buffer and the paired payload `w` into the output buffer. -/
def pairTestWrite (p : ImageBuf × ImageBuf) (x y : Int) (d : ℚ) (w : EDouble) :
    ImageBuf × ImageBuf :=
  if EDouble.lt (.fin d) (p.1.data x y) then (p.1.set x y (.fin d), p.2.set x y w) else p

/-- The inner x-loop of the two-buffer `render_triangle` overloads. -/
def renderRowPair (Ad Bd Cd : ℚ) (wf : Int → Int → EDouble) (y : Int) (xs : List Int)
    (p : ImageBuf × ImageBuf) : ImageBuf × ImageBuf :=
  xs.foldl (fun q x => pairTestWrite q x y (Bd * (y : ℚ) + Cd + Ad * (x : ℚ)) (wf x y)) p

/-- One scanline iteration of the two-buffer overloads; the row guard and the
column clamp are taken against the output image dimensions `W × H`, exactly as
the templates test `img.height()` and `img.width()`. -/
def rowsStepPair (W H : Nat) (Ad Bd Cd : ℚ) (wf : Int → Int → EDouble)
    (p : ImageBuf × ImageBuf) (r : Int × Int × Int) : ImageBuf × ImageBuf :=
  if r.1 < 0 ∨ (H : Int) ≤ r.1 then p
  else renderRowPair Ad Bd Cd wf r.1 (intRange (max 0 r.2.1) (min ((W : Int) - 1) r.2.2)) p

/-- Template `render_triangle` with a second, linearly interpolated attribute
plane written into a paired image (render_mesh_depth_map.h, lines 115-163). -/
def render_triangle_attrib (v1 v2 v3 : Vec2) (d1 d2 d3 a1 a2 a3 : ℚ)
    (depth_img img : ImageBuf) : ImageBuf × ImageBuf :=
  (scan_coverage v1 v2 v3).foldl
    (rowsStepPair img.width img.height (planeA v1 v2 v3 d1 d2 d3)
      (planeB v1 v2 v3 d1 d2 d3) (planeC v1 v2 v3 d1 d2 d3)
      (fun x y => .fin (planeEval v1 v2 v3 a1 a2 a3 (x : ℚ) (y : ℚ))))
    (depth_img, img)

/-- Template `render_triangle` with a constant fill value stamped into a paired
image wherever the depth buffer is updated (render_mesh_depth_map.h, lines
177-213). -/
def render_triangle_fill (v1 v2 v3 : Vec2) (d1 d2 d3 : ℚ) (value : ℚ)
    (depth_img img : ImageBuf) : ImageBuf × ImageBuf :=
  (scan_coverage v1 v2 v3).foldl
    (rowsStepPair img.width img.height (planeA v1 v2 v3 d1 d2 d3)
      (planeB v1 v2 v3 d1 d2 d3) (planeC v1 v2 v3 d1 d2 d3)
      (fun _ _ => .fin value))
    (depth_img, img)

/-- A triangle submission for the two-buffer compositor: depths plus a
per-vertex attribute. -/
structure TriA where
  v1 : Vec2
  v2 : Vec2
  v3 : Vec2
  d1 : ℚ
  d2 : ℚ
  d3 : ℚ
  a1 : ℚ
  a2 : ℚ
  a3 : ℚ
deriving DecidableEq

/-- Render a finite sequence of attribute triangles into a paired
depth/attribute buffer, in submission order. -/
def render_triangles_attrib (ts : List TriA) (p : ImageBuf × ImageBuf) :
    ImageBuf × ImageBuf :=
  ts.foldl (fun q t =>
    render_triangle_attrib t.v1 t.v2 t.v3 t.d1 t.d2 t.d3 t.a1 t.a2 t.a3 q.1 q.2) p

/-- A 3D point with rational coordinates. -/
abbrev Pt3 := ℚ × ℚ × ℚ

/-- Dot product on 3D points. -/
def dot3 (a b : Pt3) : ℚ := a.1 * b.1 + a.2.1 * b.2.1 + a.2.2 * b.2.2

/-- Componentwise negation on 3D points. -/
def neg3 (a : Pt3) : Pt3 := (-a.1, -a.2.1, -a.2.2)

/-- The origin, used as the out-of-range default of vertex lookups. -/
def origin3 : Pt3 := (0, 0, 0)

/-- A 3×3 matrix with rational entries (the leading block of the camera's 3×4
projection matrix). -/
structure Mat3 where
  a00 : ℚ
  a01 : ℚ
  a02 : ℚ
  a10 : ℚ
  a11 : ℚ
  a12 : ℚ
  a20 : ℚ
  a21 : ℚ
  a22 : ℚ
deriving DecidableEq

/-- Determinant of a 3×3 matrix. -/
def Mat3.det (m : Mat3) : ℚ :=
  m.a00 * (m.a11 * m.a22 - m.a12 * m.a21)
    - m.a01 * (m.a10 * m.a22 - m.a12 * m.a20)
    + m.a02 * (m.a10 * m.a21 - m.a11 * m.a20)

/-- Inverse of a 3×3 matrix by the adjugate-over-determinant closed form (what
Eigen's fixed-size `.inverse()` computes). -/
def Mat3.inv (m : Mat3) : Mat3 :=
  ⟨(m.a11 * m.a22 - m.a12 * m.a21) / m.det,
   (m.a02 * m.a21 - m.a01 * m.a22) / m.det,
   (m.a01 * m.a12 - m.a02 * m.a11) / m.det,
   (m.a12 * m.a20 - m.a10 * m.a22) / m.det,
   (m.a00 * m.a22 - m.a02 * m.a20) / m.det,
   (m.a02 * m.a10 - m.a00 * m.a12) / m.det,
   (m.a10 * m.a21 - m.a11 * m.a20) / m.det,
   (m.a01 * m.a20 - m.a00 * m.a21) / m.det,
   (m.a00 * m.a11 - m.a01 * m.a10) / m.det⟩

/-- Row 2 (0-indexed) of a 3×3 matrix, as a 3D point. -/
def Mat3.row2 (m : Mat3) : Pt3 := (m.a20, m.a21, m.a22)

/-- Matrix-vector product `m · v`. -/
def Mat3.mulVec (m : Mat3) (v : Pt3) : Pt3 :=
  (m.a00 * v.1 + m.a01 * v.2.1 + m.a02 * v.2.2,
   m.a10 * v.1 + m.a11 * v.2.1 + m.a12 * v.2.2,
   m.a20 * v.1 + m.a21 * v.2.1 + m.a22 * v.2.2)

/-- Row-vector-matrix product `vᵀ · m`. -/
def Mat3.vecMul (v : Pt3) (m : Mat3) : Pt3 :=
  (v.1 * m.a00 + v.2.1 * m.a10 + v.2.2 * m.a20,
   v.1 * m.a01 + v.2.1 * m.a11 + v.2.2 * m.a21,
   v.1 * m.a02 + v.2.1 * m.a12 + v.2.2 * m.a22)

/-- Modelled from the spec: the vital camera classes are not among the provided
sources; per spec section 3 a camera is an opaque capability exposing
`project(point3D) → point2D`, `depth(point3D) → scalar`, image width/height, a
perspective flag (whether the `dynamic_pointer_cast` to `camera_perspective`
succeeds), and — for perspective cameras — the 3×4 projection matrix
`as_matrix()`, carried here as its leading 3×3 block `P3` and last column
`pcol3`. -/
structure Camera where
  project : Pt3 → Vec2
  depth : Pt3 → ℚ
  image_width : Nat
  image_height : Nat
  isPerspective : Bool
  P3 : Mat3
  pcol3 : Pt3

/-- Modelled from the spec: the vital mesh classes are not among the provided
sources; per spec sections 3 and 6 a mesh exposes an ordered vertex sequence,
an ordered face sequence (each face a tuple of vertex indices) and
`faces().regularity()` (equal to 3 exactly for the uniformly triangular face
arrays the renderers accept), carried here as an explicit field. -/
structure Mesh where
  verts : List Pt3
  faces : List (List Nat)
  regularity : Nat

/-- Index `k` of a face's vertex-index tuple. -/
def faceVert (face : List Nat) (k : Nat) : Nat := face.getD k 0

/-- Vertex lookup, `vertices[idx]`. -/
def vertAt (mesh : Mesh) (idx : Nat) : Pt3 := mesh.verts.getD idx origin3

/-- Projected-vertex lookup, `points_2d[idx]` where `points_2d[i] = camera->project(vertices[i])`. -/
def projAt (mesh : Mesh) (camera : Camera) (idx : Nat) : Vec2 :=
  (mesh.verts.map camera.project).getD idx ⟨0, 0⟩

/-- The depth triangle rasterized for one face of `render_mesh_depth_map`:
projected 2D corners with per-vertex depth `-1 / camera.depth(vertex)`. -/
def depthTri (mesh : Mesh) (camera : Camera) (face : List Nat) : Tri :=
  { v1 := projAt mesh camera (faceVert face 0)
    v2 := projAt mesh camera (faceVert face 1)
    v3 := projAt mesh camera (faceVert face 2)
    d1 := -1 / camera.depth (vertAt mesh (faceVert face 0))
    d2 := -1 / camera.depth (vertAt mesh (faceVert face 1))
    d3 := -1 / camera.depth (vertAt mesh (faceVert face 2)) }

/-- The triangle list `render_mesh_depth_map` submits, one per face. -/
def meshTris (mesh : Mesh) (camera : Camera) : List Tri :=
  mesh.faces.map (depthTri mesh camera)

/-- The height triangle rasterized for one face of the non-perspective branch
of `render_mesh_height_map`: per-vertex key `-(vertex z)`. -/
def heightTri (mesh : Mesh) (camera : Camera) (face : List Nat) : Tri :=
  { v1 := projAt mesh camera (faceVert face 0)
    v2 := projAt mesh camera (faceVert face 1)
    v3 := projAt mesh camera (faceVert face 2)
    d1 := -(vertAt mesh (faceVert face 0)).2.2
    d2 := -(vertAt mesh (faceVert face 1)).2.2
    d3 := -(vertAt mesh (faceVert face 2)).2.2 }

/-- The triangle list of the non-perspective branch of `render_mesh_height_map`. -/
def meshTrisH (mesh : Mesh) (camera : Camera) : List Tri :=
  mesh.faces.map (heightTri mesh camera)

/-- `transform_image`: apply a pointwise map to every pixel of a buffer. -/
def transform_image (f : EDouble → EDouble) (img : ImageBuf) : ImageBuf :=
  { img with data := fun i j => f (img.data i j) }

/-- The post-compositing lambda of `render_mesh_depth_map`:
`d ↦ isinf(d) ? d : -1/d`. -/
def invLambda : EDouble → EDouble
  | .inf => .inf
  | .fin d => .fin (-1 / d)

/-- The post-compositing lambda of the non-perspective branch of
`render_mesh_height_map`: `h ↦ isinf(h) ? h : -h`. -/
def negLambda : EDouble → EDouble
  | .inf => .inf
  | .fin h => .fin (-h)

/-- `render_mesh_depth_map` (render_mesh_depth_map.cxx, lines 49-91): project
the vertices, initialize the buffer to `+infinity`; when the mesh is triangular
(`regularity == 3`) rasterize every face with depths `-1/camera.depth(vertex)`
and decode finite depths through `-1/d`; otherwise log the "mesh has to be
triangular" error (the Boolean component) and return the untouched buffer. -/
def render_mesh_depth_map (mesh : Mesh) (camera : Camera) : ImageBuf × Bool :=
  if mesh.regularity = 3 then
    (transform_image invLambda
      (render_triangles (meshTris mesh camera)
        (initBuf camera.image_width camera.image_height)), false)
  else
    (initBuf camera.image_width camera.image_height, true)

/-- `depth_map_to_height_map` (render_mesh_depth_map.cxx, lines 150-168): with
`v` row 2 of the inverse of the leading 3×3 block of the projection matrix and
`o = v · (-P.col(3))`, map every finite depth `d` at pixel `(i, j)` to
`d * v·(i, j, 1) + o` and keep `+infinity` unchanged. -/
def depth_map_to_height_map (camera : Camera) (depth_map : ImageBuf) : ImageBuf :=
  { width := depth_map.width
    height := depth_map.height
    data := fun i j =>
      match depth_map.data i j with
      | .inf => .inf
      | .fin d =>
          .fin (d * dot3 camera.P3.inv.row2 ((i : ℚ), (j : ℚ), 1)
            + dot3 camera.P3.inv.row2 (neg3 camera.pcol3)) }

/-- `render_mesh_height_map` (render_mesh_depth_map.cxx, lines 94-147): for a
triangular mesh and a perspective camera, render the depth map and convert it;
for a non-perspective camera rasterize with keys `-(vertex z)` and negate
finite outputs; for a non-triangular mesh log the error and return the
untouched buffer. -/
def render_mesh_height_map (mesh : Mesh) (camera : Camera) : ImageBuf × Bool :=
  if mesh.regularity = 3 then
    if camera.isPerspective then
      (depth_map_to_height_map camera (render_mesh_depth_map mesh camera).1, false)
    else
      (transform_image negLambda
        (render_triangles (meshTrisH mesh camera)
          (initBuf camera.image_width camera.image_height)), false)
  else
    (initBuf camera.image_width camera.image_height, true)

/-- The direction vector exactly as the spec sentence words it:
`v = M⁻¹ · row2(M)`, the matrix-vector product of the inverse of the leading
3×3 block with that block's row 2. -/
def specDirV (m : Mat3) : Pt3 := m.inv.mulVec m.row2

/-- Depth-to-height conversion with the direction vector taken as the spec
sentence words it (`specDirV`), for comparison with the code's
`depth_map_to_height_map`. -/
def spec_depth_map_to_height_map (camera : Camera) (depth_map : ImageBuf) : ImageBuf :=
  { width := depth_map.width
    height := depth_map.height
    data := fun i j =>
      match depth_map.data i j with
      | .inf => .inf
      | .fin d =>
          .fin (d * dot3 (specDirV camera.P3) ((i : ℚ), (j : ℚ), 1)
            + dot3 (specDirV camera.P3) (neg3 camera.pcol3)) }

/-- The barycentric denominator of the texture applet
(texture_from_pointcloud.cxx, lines 93-94). -/
def baryDenom (p0 p1 p2 : Vec2) : ℚ :=
  (p1.y - p2.y) * (p0.x - p2.x) + (p2.x - p1.x) * (p0.y - p2.y)

/-- `barycentric` (texture_from_pointcloud.cxx, lines 89-105): the in/out
parameters `u, v` are returned unchanged when the denominator is zero. -/
def barycentric (u v : ℚ) (x y : ℚ) (p0 p1 p2 : Vec2) : ℚ × ℚ :=
  if baryDenom p0 p1 p2 = 0 then (u, v)
  else
    (((p1.y - p2.y) * (x - p2.x) + (p2.x - p1.x) * (y - p2.y)) / baryDenom p0 p1 p2,
     ((p2.y - p0.y) * (x - p2.x) + (p0.x - p2.x) * (y - p2.y)) / baryDenom p0 p1 p2)

/-- The texel acceptance test of `texture_mesh` (texture_from_pointcloud.cxx,
lines 374-380): `u` and `v` start at the sentinel `-1`, may be updated by
`barycentric`, and the texel is accepted iff `0 ≤ u ≤ 1`, `0 ≤ v ≤ 1` and
`u + v ≤ 1`. -/
def texelAccept (x y : ℚ) (p0 p1 p2 : Vec2) : Bool :=
  decide (0 ≤ (barycentric (-1) (-1) x y p0 p1 p2).1
    ∧ (barycentric (-1) (-1) x y p0 p1 p2).1 ≤ 1
    ∧ 0 ≤ (barycentric (-1) (-1) x y p0 p1 p2).2
    ∧ (barycentric (-1) (-1) x y p0 p1 p2).2 ≤ 1
    ∧ (barycentric (-1) (-1) x y p0 p1 p2).1 + (barycentric (-1) (-1) x y p0 p1 p2).2 ≤ 1)

/-- The back-projection of an accepted texel (texture_from_pointcloud.cxx,
lines 382-385): `(1-u-v)·corner0 + v·corner1 + u·corner2`. -/
def backproject (u v : ℚ) (c0 c1 c2 : Pt3) : Pt3 :=
  (1 - u - v) • c0 + v • c1 + u • c2

/-- A concrete triangle covering the lower-left of a small buffer, depth 1. -/
def exTri1 : Tri := ⟨⟨0, 0⟩, ⟨2, 0⟩, ⟨0, 2⟩, 1, 1, 1⟩

/-- The same concrete triangle with depth 2. -/
def exTri2 : Tri := ⟨⟨0, 0⟩, ⟨2, 0⟩, ⟨0, 2⟩, 2, 2, 2⟩

/-- A concrete camera over a 2×2 image with an invertible projection block. -/
def exCam : Camera :=
  { project := fun p => ⟨p.1, p.2.1⟩
    depth := fun _ => 1
    image_width := 2
    image_height := 2
    isPerspective := true
    P3 := ⟨1, 0, 0, 0, 1, 0, 1, 0, 1⟩
    pcol3 := origin3 }

/-- A concrete one-triangle mesh. -/
def exMesh : Mesh :=
  { verts := [(0, 0, 0), (1, 0, 0), (0, 1, 0)], faces := [[0, 1, 2]], regularity := 3 }

/-- A concrete triangular mesh with no faces. -/
def exMeshEmpty : Mesh := { verts := [], faces := [], regularity := 3 }

/-- A concrete non-triangular (quad) mesh, `regularity = 4`. -/
def exMeshQuad : Mesh :=
  { verts := [(0, 0, 0), (1, 0, 0), (1, 1, 0), (0, 1, 0)]
    faces := [[0, 1, 2, 3]]
    regularity := 4 }

/-- A concrete camera whose projection block has a non-trivial third row. -/
def cexCam : Camera :=
  { project := fun _ => ⟨0, 0⟩
    depth := fun _ => 1
    image_width := 1
    image_height := 1
    isPerspective := true
    P3 := ⟨1, 0, 0, 0, 1, 0, 1, 0, 1⟩
    pcol3 := origin3 }

/-- A concrete 1×1 depth buffer holding the finite depth 1. -/
def cexDepth : ImageBuf := ⟨1, 1, fun _ _ => .fin 1⟩

/-! ### Basic facts about the extended scalars and the depth-test minimum -/

theorem edlt_irrefl (a : EDouble) : EDouble.lt a a = false := by
  cases a <;> simp [EDouble.lt]

theorem edlt_fin_inf (d : ℚ) : EDouble.lt (.fin d) .inf = true := rfl

theorem dmin_inf_left (b : EDouble) : dmin .inf b = b := by
  cases b <;> simp [dmin, EDouble.lt]

theorem dmin_inf_right (a : EDouble) : dmin a .inf = a := by
  simp [dmin, EDouble.lt]

theorem dmin_fin_fin (a b : ℚ) : dmin (.fin a) (.fin b) = .fin (min a b) := by
  simp only [dmin, EDouble.lt]
  by_cases h : b < a
  · simp [h, min_eq_right (le_of_lt h)]
  · simp [h, min_eq_left (not_lt.mp h)]

theorem dmin_comm (a b : EDouble) : dmin a b = dmin b a := by
  cases a <;> cases b <;>
    simp [dmin_inf_left, dmin_inf_right, dmin_fin_fin, min_comm]

theorem dmin_assoc (a b c : EDouble) : dmin (dmin a b) c = dmin a (dmin b c) := by
  cases a <;> cases b <;> cases c <;>
    simp [dmin_inf_left, dmin_inf_right, dmin_fin_fin, min_assoc]

theorem dmin_idem (a : EDouble) : dmin a a = a := by
  simp [dmin, edlt_irrefl]

theorem dmin_idem_right (a b : EDouble) : dmin (dmin a b) b = dmin a b := by
  rw [dmin_assoc, dmin_idem]

theorem dmin_right_comm (c a b : EDouble) : dmin (dmin c a) b = dmin (dmin c b) a := by
  rw [dmin_assoc, dmin_assoc, dmin_comm a b]

theorem edlt_dmin_self (a b : EDouble) : EDouble.lt b (dmin a b) = false := by
  unfold dmin
  by_cases h : EDouble.lt b a = true
  · simp [h, edlt_irrefl]
  · simp only [Bool.not_eq_true] at h
    simp [h]

/-! ### Pointwise behaviour of the buffer writes -/

theorem ImageBuf.set_data (img : ImageBuf) (x y : Int) (v : EDouble) (i j : Int) :
    (img.set x y v).data i j = if i = x ∧ j = y then v else img.data i j := rfl

theorem ImageBuf.set_width (img : ImageBuf) (x y : Int) (v : EDouble) :
    (img.set x y v).width = img.width := rfl

theorem ImageBuf.set_height (img : ImageBuf) (x y : Int) (v : EDouble) :
    (img.set x y v).height = img.height := rfl

theorem depthTestWrite_data (buf : ImageBuf) (x y : Int) (d : ℚ) (i j : Int) :
    (depthTestWrite buf x y d).data i j =
      if i = x ∧ j = y then dmin (buf.data i j) (.fin d) else buf.data i j := by
  unfold depthTestWrite
  by_cases hij : i = x ∧ j = y
  · obtain ⟨rfl, rfl⟩ := hij
    by_cases h : EDouble.lt (.fin d) (buf.data i j) = true
    · simp [h, ImageBuf.set_data, dmin, dmin_comm]
    · simp only [Bool.not_eq_true] at h
      simp [h, dmin, dmin_comm]
  · by_cases h : EDouble.lt (.fin d) (buf.data x y) = true
    · simp [h, ImageBuf.set_data, hij]
    · simp only [Bool.not_eq_true] at h
      simp [h, hij]

theorem depthTestWrite_width (buf : ImageBuf) (x y : Int) (d : ℚ) :
    (depthTestWrite buf x y d).width = buf.width := by
  unfold depthTestWrite; split <;> rfl

theorem depthTestWrite_height (buf : ImageBuf) (x y : Int) (d : ℚ) :
    (depthTestWrite buf x y d).height = buf.height := by
  unfold depthTestWrite; split <;> rfl

theorem mem_intRange {a b i : Int} : i ∈ intRange a b ↔ a ≤ i ∧ i ≤ b := by
  simp only [intRange, List.mem_map, List.mem_range]
  constructor
  · rintro ⟨k, hk, rfl⟩
    omega
  · intro h
    exact ⟨(i - a).toNat, by omega, by omega⟩

theorem renderRow_data (A B C : ℚ) (y : Int) (xs : List Int) (buf : ImageBuf) (i j : Int) :
    (renderRow A B C y xs buf).data i j =
      if j = y ∧ i ∈ xs then dmin (buf.data i j) (.fin (B * (y : ℚ) + C + A * (i : ℚ)))
      else buf.data i j := by
  induction xs generalizing buf with
  | nil => simp [renderRow]
  | cons x xs ih =>
    have hstep : renderRow A B C y (x :: xs) buf =
        renderRow A B C y xs (depthTestWrite buf x y (B * (y : ℚ) + C + A * (x : ℚ))) := by
      simp [renderRow]
    rw [hstep, ih, depthTestWrite_data]
    by_cases hj : j = y
    · subst hj
      by_cases hx : i = x
      · subst hx
        by_cases hxs : i ∈ xs <;> simp [hxs, dmin_idem_right]
      · by_cases hxs : i ∈ xs <;> simp [hx, hxs]
    · simp [hj]

theorem renderRow_width (A B C : ℚ) (y : Int) (xs : List Int) (buf : ImageBuf) :
    (renderRow A B C y xs buf).width = buf.width := by
  induction xs generalizing buf with
  | nil => rfl
  | cons x xs ih =>
    have hstep : renderRow A B C y (x :: xs) buf =
        renderRow A B C y xs (depthTestWrite buf x y (B * (y : ℚ) + C + A * (x : ℚ))) := by
      simp [renderRow]
    rw [hstep, ih, depthTestWrite_width]

theorem renderRow_height (A B C : ℚ) (y : Int) (xs : List Int) (buf : ImageBuf) :
    (renderRow A B C y xs buf).height = buf.height := by
  induction xs generalizing buf with
  | nil => rfl
  | cons x xs ih =>
    have hstep : renderRow A B C y (x :: xs) buf =
        renderRow A B C y xs (depthTestWrite buf x y (B * (y : ℚ) + C + A * (x : ℚ))) := by
      simp [renderRow]
    rw [hstep, ih, depthTestWrite_height]

theorem rowsStep_data (W H : Nat) (A B C : ℚ) (buf : ImageBuf) (r : Int × Int × Int)
    (i j : Int) :
    (rowsStep W H A B C buf r).data i j =
      if rowCovers W H r i j then dmin (buf.data i j) (.fin (B * (j : ℚ) + C + A * (i : ℚ)))
      else buf.data i j := by
  unfold rowsStep
  by_cases hskip : r.1 < 0 ∨ (H : Int) ≤ r.1
  · have hrc : rowCovers W H r i j = false := by
      simp only [rowCovers, decide_eq_false_iff_not]
      omega
    simp [hskip, hrc]
  · rw [if_neg hskip, renderRow_data]
    have hcond : (j = r.1 ∧ i ∈ intRange (max 0 r.2.1) (min ((W : Int) - 1) r.2.2)) ↔
        rowCovers W H r i j = true := by
      simp only [rowCovers, mem_intRange, decide_eq_true_eq]
      omega
    by_cases hc : rowCovers W H r i j = true
    · have hd := hcond.mpr hc
      rw [if_pos hd, if_pos hc, hd.1]
    · have hd : ¬(j = r.1 ∧ i ∈ intRange (max 0 r.2.1) (min ((W : Int) - 1) r.2.2)) :=
        fun h => hc (hcond.mp h)
      rw [if_neg hd, if_neg hc]

theorem rowsStep_width (W H : Nat) (A B C : ℚ) (buf : ImageBuf) (r : Int × Int × Int) :
    (rowsStep W H A B C buf r).width = buf.width := by
  unfold rowsStep; split
  · rfl
  · exact renderRow_width _ _ _ _ _ _

theorem rowsStep_height (W H : Nat) (A B C : ℚ) (buf : ImageBuf) (r : Int × Int × Int) :
    (rowsStep W H A B C buf r).height = buf.height := by
  unfold rowsStep; split
  · rfl
  · exact renderRow_height _ _ _ _ _ _

theorem rowsFold_data (W H : Nat) (A B C : ℚ) (rows : List (Int × Int × Int))
    (buf : ImageBuf) (i j : Int) :
    ((rows.foldl (rowsStep W H A B C) buf).data i j) =
      if rows.any (fun r => rowCovers W H r i j) then
        dmin (buf.data i j) (.fin (B * (j : ℚ) + C + A * (i : ℚ)))
      else buf.data i j := by
  induction rows generalizing buf with
  | nil => simp
  | cons r rows ih =>
    rw [List.foldl_cons, ih, rowsStep_data]
    by_cases hr : rowCovers W H r i j = true
    · by_cases hrest : rows.any (fun r => rowCovers W H r i j) = true <;>
        simp [hr, hrest, dmin_idem_right]
    · simp only [Bool.not_eq_true] at hr
      by_cases hrest : rows.any (fun r => rowCovers W H r i j) = true <;>
        simp [hr, hrest]

theorem render_triangle_data (v1 v2 v3 : Vec2) (d1 d2 d3 : ℚ) (img : ImageBuf) (i j : Int) :
    (render_triangle v1 v2 v3 d1 d2 d3 img).data i j =
      if triCovers img.width img.height v1 v2 v3 i j then
        dmin (img.data i j) (.fin (planeEval v1 v2 v3 d1 d2 d3 (i : ℚ) (j : ℚ)))
      else img.data i j := by
  unfold render_triangle triCovers planeEval
  exact rowsFold_data _ _ _ _ _ _ _ _ _

theorem rowsFold_width (W H : Nat) (A B C : ℚ) (rows : List (Int × Int × Int))
    (buf : ImageBuf) :
    (rows.foldl (rowsStep W H A B C) buf).width = buf.width := by
  induction rows generalizing buf with
  | nil => rfl
  | cons r rows ih => rw [List.foldl_cons, ih, rowsStep_width]

theorem rowsFold_height (W H : Nat) (A B C : ℚ) (rows : List (Int × Int × Int))
    (buf : ImageBuf) :
    (rows.foldl (rowsStep W H A B C) buf).height = buf.height := by
  induction rows generalizing buf with
  | nil => rfl
  | cons r rows ih => rw [List.foldl_cons, ih, rowsStep_height]

theorem render_triangle_width (v1 v2 v3 : Vec2) (d1 d2 d3 : ℚ) (img : ImageBuf) :
    (render_triangle v1 v2 v3 d1 d2 d3 img).width = img.width :=
  rowsFold_width _ _ _ _ _ _ _

theorem render_triangle_height (v1 v2 v3 : Vec2) (d1 d2 d3 : ℚ) (img : ImageBuf) :
    (render_triangle v1 v2 v3 d1 d2 d3 img).height = img.height :=
  rowsFold_height _ _ _ _ _ _ _

/-! ### Pointwise behaviour of the two-buffer writes -/

theorem pairTestWrite_fst_data (p : ImageBuf × ImageBuf) (x y : Int) (d : ℚ) (w : EDouble)
    (i j : Int) :
    (pairTestWrite p x y d w).1.data i j =
      if i = x ∧ j = y then dmin (p.1.data i j) (.fin d) else p.1.data i j := by
  unfold pairTestWrite
  by_cases hij : i = x ∧ j = y
  · obtain ⟨rfl, rfl⟩ := hij
    by_cases h : EDouble.lt (.fin d) (p.1.data i j) = true
    · simp [h, ImageBuf.set_data, dmin, dmin_comm]
    · simp only [Bool.not_eq_true] at h
      simp [h, dmin, dmin_comm]
  · by_cases h : EDouble.lt (.fin d) (p.1.data x y) = true
    · simp [h, ImageBuf.set_data, hij]
    · simp only [Bool.not_eq_true] at h
      simp [h, hij]

theorem pairTestWrite_snd_data (p : ImageBuf × ImageBuf) (x y : Int) (d : ℚ) (w : EDouble)
    (i j : Int) :
    (pairTestWrite p x y d w).2.data i j =
      if (i = x ∧ j = y) ∧ EDouble.lt (.fin d) (p.1.data x y) = true then w
      else p.2.data i j := by
  unfold pairTestWrite
  by_cases h : EDouble.lt (.fin d) (p.1.data x y) = true
  · by_cases hij : i = x ∧ j = y
    · obtain ⟨rfl, rfl⟩ := hij
      simp [h, ImageBuf.set_data]
    · simp [h, hij, ImageBuf.set_data]
  · simp only [Bool.not_eq_true] at h
    simp [h]

theorem renderRowPair_fst_data (Ad Bd Cd : ℚ) (wf : Int → Int → EDouble) (y : Int)
    (xs : List Int) (p : ImageBuf × ImageBuf) (i j : Int) :
    (renderRowPair Ad Bd Cd wf y xs p).1.data i j =
      if j = y ∧ i ∈ xs then dmin (p.1.data i j) (.fin (Bd * (y : ℚ) + Cd + Ad * (i : ℚ)))
      else p.1.data i j := by
  induction xs generalizing p with
  | nil => simp [renderRowPair]
  | cons x xs ih =>
    have hstep : renderRowPair Ad Bd Cd wf y (x :: xs) p =
        renderRowPair Ad Bd Cd wf y xs
          (pairTestWrite p x y (Bd * (y : ℚ) + Cd + Ad * (x : ℚ)) (wf x y)) := by
      simp [renderRowPair]
    rw [hstep, ih, pairTestWrite_fst_data]
    by_cases hj : j = y
    · subst hj
      by_cases hx : i = x
      · subst hx
        by_cases hxs : i ∈ xs <;> simp [hxs, dmin_idem_right]
      · by_cases hxs : i ∈ xs <;> simp [hx, hxs]
    · simp [hj]

theorem renderRowPair_snd_data (Ad Bd Cd : ℚ) (wf : Int → Int → EDouble) (y : Int)
    (xs : List Int) (p : ImageBuf × ImageBuf) (i j : Int) :
    (renderRowPair Ad Bd Cd wf y xs p).2.data i j =
      if (j = y ∧ i ∈ xs) ∧
          EDouble.lt (.fin (Bd * (y : ℚ) + Cd + Ad * (i : ℚ))) (p.1.data i j) = true then
        wf i j
      else p.2.data i j := by
  induction xs generalizing p with
  | nil => simp [renderRowPair]
  | cons x xs ih =>
    have hstep : renderRowPair Ad Bd Cd wf y (x :: xs) p =
        renderRowPair Ad Bd Cd wf y xs
          (pairTestWrite p x y (Bd * (y : ℚ) + Cd + Ad * (x : ℚ)) (wf x y)) := by
      simp [renderRowPair]
    rw [hstep, ih, pairTestWrite_fst_data, pairTestWrite_snd_data]
    by_cases hj : j = y
    · subst hj
      by_cases hx : i = x
      · subst hx
        simp [edlt_dmin_self]
      · by_cases hxs : i ∈ xs <;> simp [hx, hxs]
    · simp [hj]

theorem rowsStepPair_fst_data (W H : Nat) (Ad Bd Cd : ℚ) (wf : Int → Int → EDouble)
    (p : ImageBuf × ImageBuf) (r : Int × Int × Int) (i j : Int) :
    (rowsStepPair W H Ad Bd Cd wf p r).1.data i j =
      if rowCovers W H r i j then
        dmin (p.1.data i j) (.fin (Bd * (j : ℚ) + Cd + Ad * (i : ℚ)))
      else p.1.data i j := by
  unfold rowsStepPair
  by_cases hskip : r.1 < 0 ∨ (H : Int) ≤ r.1
  · have hrc : rowCovers W H r i j = false := by
      simp only [rowCovers, decide_eq_false_iff_not]
      omega
    simp [hskip, hrc]
  · rw [if_neg hskip, renderRowPair_fst_data]
    have hcond : (j = r.1 ∧ i ∈ intRange (max 0 r.2.1) (min ((W : Int) - 1) r.2.2)) ↔
        rowCovers W H r i j = true := by
      simp only [rowCovers, mem_intRange, decide_eq_true_eq]
      omega
    by_cases hc : rowCovers W H r i j = true
    · have hd := hcond.mpr hc
      rw [if_pos hd, if_pos hc, hd.1]
    · have hd : ¬(j = r.1 ∧ i ∈ intRange (max 0 r.2.1) (min ((W : Int) - 1) r.2.2)) :=
        fun h => hc (hcond.mp h)
      rw [if_neg hd, if_neg hc]

theorem rowsStepPair_snd_data (W H : Nat) (Ad Bd Cd : ℚ) (wf : Int → Int → EDouble)
    (p : ImageBuf × ImageBuf) (r : Int × Int × Int) (i j : Int) :
    (rowsStepPair W H Ad Bd Cd wf p r).2.data i j =
      if rowCovers W H r i j = true ∧
          EDouble.lt (.fin (Bd * (j : ℚ) + Cd + Ad * (i : ℚ))) (p.1.data i j) = true then
        wf i j
      else p.2.data i j := by
  unfold rowsStepPair
  by_cases hskip : r.1 < 0 ∨ (H : Int) ≤ r.1
  · have hrc : rowCovers W H r i j = false := by
      simp only [rowCovers, decide_eq_false_iff_not]
      omega
    simp [hskip, hrc]
  · rw [if_neg hskip, renderRowPair_snd_data]
    have hcond : (j = r.1 ∧ i ∈ intRange (max 0 r.2.1) (min ((W : Int) - 1) r.2.2)) ↔
        rowCovers W H r i j = true := by
      simp only [rowCovers, mem_intRange, decide_eq_true_eq]
      omega
    by_cases hc : rowCovers W H r i j = true
    · obtain ⟨hj, hmem⟩ := hcond.mpr hc
      subst hj
      simp [hc, hmem]
    · have hd : ¬(j = r.1 ∧ i ∈ intRange (max 0 r.2.1) (min ((W : Int) - 1) r.2.2)) :=
        fun h => hc (hcond.mp h)
      simp [hc, hd]

theorem pairFold_fst_data (W H : Nat) (Ad Bd Cd : ℚ) (wf : Int → Int → EDouble)
    (rows : List (Int × Int × Int)) (p : ImageBuf × ImageBuf) (i j : Int) :
    ((rows.foldl (rowsStepPair W H Ad Bd Cd wf) p).1.data i j) =
      if rows.any (fun r => rowCovers W H r i j) then
        dmin (p.1.data i j) (.fin (Bd * (j : ℚ) + Cd + Ad * (i : ℚ)))
      else p.1.data i j := by
  induction rows generalizing p with
  | nil => simp
  | cons r rows ih =>
    rw [List.foldl_cons, ih, rowsStepPair_fst_data]
    by_cases hr : rowCovers W H r i j = true
    · by_cases hrest : rows.any (fun r => rowCovers W H r i j) = true <;>
        simp [hr, hrest, dmin_idem_right]
    · simp only [Bool.not_eq_true] at hr
      by_cases hrest : rows.any (fun r => rowCovers W H r i j) = true <;>
        simp [hr, hrest]

theorem pairFold_snd_data (W H : Nat) (Ad Bd Cd : ℚ) (wf : Int → Int → EDouble)
    (rows : List (Int × Int × Int)) (p : ImageBuf × ImageBuf) (i j : Int) :
    ((rows.foldl (rowsStepPair W H Ad Bd Cd wf) p).2.data i j) =
      if rows.any (fun r => rowCovers W H r i j) = true ∧
          EDouble.lt (.fin (Bd * (j : ℚ) + Cd + Ad * (i : ℚ))) (p.1.data i j) = true then
        wf i j
      else p.2.data i j := by
  induction rows generalizing p with
  | nil => simp
  | cons r rows ih =>
    rw [List.foldl_cons, ih, rowsStepPair_fst_data, rowsStepPair_snd_data]
    by_cases hr : rowCovers W H r i j = true
    · simp [hr, edlt_dmin_self]
    · simp only [Bool.not_eq_true] at hr
      simp only [List.any_cons, hr, Bool.false_eq_true, false_and, if_false, Bool.false_or]

theorem render_triangle_attrib_fst_data (v1 v2 v3 : Vec2) (d1 d2 d3 a1 a2 a3 : ℚ)
    (depth_img img : ImageBuf) (i j : Int) :
    (render_triangle_attrib v1 v2 v3 d1 d2 d3 a1 a2 a3 depth_img img).1.data i j =
      if triCovers img.width img.height v1 v2 v3 i j then
        dmin (depth_img.data i j) (.fin (planeEval v1 v2 v3 d1 d2 d3 (i : ℚ) (j : ℚ)))
      else depth_img.data i j := by
  unfold render_triangle_attrib triCovers planeEval
  exact pairFold_fst_data _ _ _ _ _ _ _ _ _ _

theorem render_triangle_attrib_snd_data (v1 v2 v3 : Vec2) (d1 d2 d3 a1 a2 a3 : ℚ)
    (depth_img img : ImageBuf) (i j : Int) :
    (render_triangle_attrib v1 v2 v3 d1 d2 d3 a1 a2 a3 depth_img img).2.data i j =
      if triCovers img.width img.height v1 v2 v3 i j = true ∧
          EDouble.lt (.fin (planeEval v1 v2 v3 d1 d2 d3 (i : ℚ) (j : ℚ)))
            (depth_img.data i j) = true then
        .fin (planeEval v1 v2 v3 a1 a2 a3 (i : ℚ) (j : ℚ))
      else img.data i j := by
  unfold render_triangle_attrib triCovers planeEval
  exact pairFold_snd_data _ _ _ _ _ _ _ _ _ _

theorem render_triangle_fill_fst_data (v1 v2 v3 : Vec2) (d1 d2 d3 value : ℚ)
    (depth_img img : ImageBuf) (i j : Int) :
    (render_triangle_fill v1 v2 v3 d1 d2 d3 value depth_img img).1.data i j =
      if triCovers img.width img.height v1 v2 v3 i j then
        dmin (depth_img.data i j) (.fin (planeEval v1 v2 v3 d1 d2 d3 (i : ℚ) (j : ℚ)))
      else depth_img.data i j := by
  unfold render_triangle_fill triCovers planeEval
  exact pairFold_fst_data _ _ _ _ _ _ _ _ _ _

theorem render_triangle_fill_snd_data (v1 v2 v3 : Vec2) (d1 d2 d3 value : ℚ)
    (depth_img img : ImageBuf) (i j : Int) :
    (render_triangle_fill v1 v2 v3 d1 d2 d3 value depth_img img).2.data i j =
      if triCovers img.width img.height v1 v2 v3 i j = true ∧
          EDouble.lt (.fin (planeEval v1 v2 v3 d1 d2 d3 (i : ℚ) (j : ℚ)))
            (depth_img.data i j) = true then
        .fin value
      else img.data i j := by
  unfold render_triangle_fill triCovers planeEval
  exact pairFold_snd_data _ _ _ _ _ _ _ _ _ _

/-! ### Composition over triangle lists -/

theorem render_triangles_width (ts : List Tri) (buf : ImageBuf) :
    (render_triangles ts buf).width = buf.width := by
  induction ts generalizing buf with
  | nil => rfl
  | cons t ts ih =>
    have hstep : render_triangles (t :: ts) buf =
        render_triangles ts (render_triangle t.v1 t.v2 t.v3 t.d1 t.d2 t.d3 buf) := by
      simp [render_triangles]
    rw [hstep, ih, render_triangle_width]

theorem render_triangles_height (ts : List Tri) (buf : ImageBuf) :
    (render_triangles ts buf).height = buf.height := by
  induction ts generalizing buf with
  | nil => rfl
  | cons t ts ih =>
    have hstep : render_triangles (t :: ts) buf =
        render_triangles ts (render_triangle t.v1 t.v2 t.v3 t.d1 t.d2 t.d3 buf) := by
      simp [render_triangles]
    rw [hstep, ih, render_triangle_height]

theorem render_triangles_data (ts : List Tri) (buf : ImageBuf) (i j : Int) :
    (render_triangles ts buf).data i j =
      (ts.filterMap (fun t => contrib buf.width buf.height t i j)).foldl
        (fun c d => dmin c (.fin d)) (buf.data i j) := by
  induction ts generalizing buf with
  | nil => simp [render_triangles]
  | cons t ts ih =>
    have hstep : render_triangles (t :: ts) buf =
        render_triangles ts (render_triangle t.v1 t.v2 t.v3 t.d1 t.d2 t.d3 buf) := by
      simp [render_triangles]
    rw [hstep, ih, render_triangle_width, render_triangle_height, render_triangle_data]
    unfold contrib
    by_cases hc : triCovers buf.width buf.height t.v1 t.v2 t.v3 i j = true
    · simp [hc]
    · simp only [Bool.not_eq_true] at hc
      simp [hc]

theorem scan_coverage_degenerate (v1 v2 v3 : Vec2)
    (h : (v2.x - v1.x) * (v3.y - v1.y) - (v2.y - v1.y) * (v3.x - v1.x) = 0) :
    scan_coverage v1 v2 v3 = [] := by
  simp [scan_coverage, h]

/-! ### Shared helper facts -/

theorem minDepth_perm {l l2 : List ℚ} (h : l.Perm l2) : minDepth l = minDepth l2 :=
  h.foldl_eq' (fun x _ y _ z => dmin_right_comm z (.fin x) (.fin y)) .inf

theorem transform_image_data (f : EDouble → EDouble) (img : ImageBuf) (i j : Int) :
    (transform_image f img).data i j = f (img.data i j) := rfl

theorem ite_dmin_eq (c : Prop) [Decidable c] (s : EDouble) (d : ℚ) :
    (if c then dmin s (.fin d) else s) =
      if c ∧ EDouble.lt (.fin d) s = true then .fin d else s := by
  by_cases hc : c
  · by_cases hlt : EDouble.lt (.fin d) s = true
    · simp [hc, hlt, dmin]
    · simp only [Bool.not_eq_true] at hlt
      simp [hc, hlt, dmin]
  · simp [hc]

theorem triCovers_false_of_out (W H : Nat) (v1 v2 v3 : Vec2) (i j : Int)
    (h : ¬(0 ≤ i ∧ i < (W : Int) ∧ 0 ≤ j ∧ j < (H : Int))) :
    triCovers W H v1 v2 v3 i j = false := by
  unfold triCovers
  rw [List.any_eq_false]
  intro r _
  simp only [rowCovers, decide_eq_true_eq]
  rintro ⟨h1, h2, h3, h4, h5⟩
  refine h ⟨le_trans le_sup_left h4, ?_, h2, h3⟩
  have h6 := le_trans h5 inf_le_left
  omega

theorem render_triangle_collinear (v1 v2 v3 : Vec2) (d1 d2 d3 : ℚ) (img : ImageBuf)
    (hcol : (v2.x - v1.x) * (v3.y - v1.y) - (v2.y - v1.y) * (v3.x - v1.x) = 0) :
    render_triangle v1 v2 v3 d1 d2 d3 img = img := by
  unfold render_triangle
  rw [scan_coverage_degenerate v1 v2 v3 hcol]
  rfl

theorem render_triangle_attrib_collinear (v1 v2 v3 : Vec2) (d1 d2 d3 a1 a2 a3 : ℚ)
    (depth_img img : ImageBuf)
    (hcol : (v2.x - v1.x) * (v3.y - v1.y) - (v2.y - v1.y) * (v3.x - v1.x) = 0) :
    render_triangle_attrib v1 v2 v3 d1 d2 d3 a1 a2 a3 depth_img img = (depth_img, img) := by
  unfold render_triangle_attrib
  rw [scan_coverage_degenerate v1 v2 v3 hcol]
  rfl

theorem render_triangle_fill_collinear (v1 v2 v3 : Vec2) (d1 d2 d3 value : ℚ)
    (depth_img img : ImageBuf)
    (hcol : (v2.x - v1.x) * (v3.y - v1.y) - (v2.y - v1.y) * (v3.x - v1.x) = 0) :
    render_triangle_fill v1 v2 v3 d1 d2 d3 value depth_img img = (depth_img, img) := by
  unfold render_triangle_fill
  rw [scan_coverage_degenerate v1 v2 v3 hcol]
  rfl

theorem pairTestWrite_dims (p : ImageBuf × ImageBuf) (x y : Int) (d : ℚ) (w : EDouble) :
    (pairTestWrite p x y d w).1.width = p.1.width ∧
    (pairTestWrite p x y d w).1.height = p.1.height ∧
    (pairTestWrite p x y d w).2.width = p.2.width ∧
    (pairTestWrite p x y d w).2.height = p.2.height := by
  unfold pairTestWrite
  split <;> exact ⟨rfl, rfl, rfl, rfl⟩

theorem renderRowPair_dims (Ad Bd Cd : ℚ) (wf : Int → Int → EDouble) (y : Int)
    (xs : List Int) (p : ImageBuf × ImageBuf) :
    (renderRowPair Ad Bd Cd wf y xs p).1.width = p.1.width ∧
    (renderRowPair Ad Bd Cd wf y xs p).1.height = p.1.height ∧
    (renderRowPair Ad Bd Cd wf y xs p).2.width = p.2.width ∧
    (renderRowPair Ad Bd Cd wf y xs p).2.height = p.2.height := by
  induction xs generalizing p with
  | nil => exact ⟨rfl, rfl, rfl, rfl⟩
  | cons x xs ih =>
    have hstep : renderRowPair Ad Bd Cd wf y (x :: xs) p =
        renderRowPair Ad Bd Cd wf y xs
          (pairTestWrite p x y (Bd * (y : ℚ) + Cd + Ad * (x : ℚ)) (wf x y)) := by
      simp [renderRowPair]
    rw [hstep]
    obtain ⟨h1, h2, h3, h4⟩ :=
      ih (pairTestWrite p x y (Bd * (y : ℚ) + Cd + Ad * (x : ℚ)) (wf x y))
    obtain ⟨g1, g2, g3, g4⟩ :=
      pairTestWrite_dims p x y (Bd * (y : ℚ) + Cd + Ad * (x : ℚ)) (wf x y)
    exact ⟨h1.trans g1, h2.trans g2, h3.trans g3, h4.trans g4⟩

theorem rowsStepPair_dims (W H : Nat) (Ad Bd Cd : ℚ) (wf : Int → Int → EDouble)
    (p : ImageBuf × ImageBuf) (r : Int × Int × Int) :
    (rowsStepPair W H Ad Bd Cd wf p r).1.width = p.1.width ∧
    (rowsStepPair W H Ad Bd Cd wf p r).1.height = p.1.height ∧
    (rowsStepPair W H Ad Bd Cd wf p r).2.width = p.2.width ∧
    (rowsStepPair W H Ad Bd Cd wf p r).2.height = p.2.height := by
  unfold rowsStepPair
  split
  · exact ⟨rfl, rfl, rfl, rfl⟩
  · exact renderRowPair_dims _ _ _ _ _ _ _

theorem pairFold_dims (W H : Nat) (Ad Bd Cd : ℚ) (wf : Int → Int → EDouble)
    (rows : List (Int × Int × Int)) (p : ImageBuf × ImageBuf) :
    ((rows.foldl (rowsStepPair W H Ad Bd Cd wf) p).1.width = p.1.width) ∧
    ((rows.foldl (rowsStepPair W H Ad Bd Cd wf) p).1.height = p.1.height) ∧
    ((rows.foldl (rowsStepPair W H Ad Bd Cd wf) p).2.width = p.2.width) ∧
    ((rows.foldl (rowsStepPair W H Ad Bd Cd wf) p).2.height = p.2.height) := by
  induction rows generalizing p with
  | nil => exact ⟨rfl, rfl, rfl, rfl⟩
  | cons r rows ih =>
    rw [List.foldl_cons]
    obtain ⟨h1, h2, h3, h4⟩ := ih (rowsStepPair W H Ad Bd Cd wf p r)
    obtain ⟨g1, g2, g3, g4⟩ := rowsStepPair_dims W H Ad Bd Cd wf p r
    exact ⟨h1.trans g1, h2.trans g2, h3.trans g3, h4.trans g4⟩

theorem render_triangle_attrib_dims (v1 v2 v3 : Vec2) (d1 d2 d3 a1 a2 a3 : ℚ)
    (depth_img img : ImageBuf) :
    (render_triangle_attrib v1 v2 v3 d1 d2 d3 a1 a2 a3 depth_img img).1.width
        = depth_img.width ∧
    (render_triangle_attrib v1 v2 v3 d1 d2 d3 a1 a2 a3 depth_img img).1.height
        = depth_img.height ∧
    (render_triangle_attrib v1 v2 v3 d1 d2 d3 a1 a2 a3 depth_img img).2.width
        = img.width ∧
    (render_triangle_attrib v1 v2 v3 d1 d2 d3 a1 a2 a3 depth_img img).2.height
        = img.height := by
  unfold render_triangle_attrib
  exact pairFold_dims _ _ _ _ _ _ _ _

theorem render_triangles_attrib_uncov (ts : List TriA) (p : ImageBuf × ImageBuf) (i j : Int)
    (huncov : ∀ t ∈ ts, triCovers p.2.width p.2.height t.v1 t.v2 t.v3 i j = false) :
    (render_triangles_attrib ts p).1.data i j = p.1.data i j ∧
    (render_triangles_attrib ts p).2.data i j = p.2.data i j := by
  induction ts generalizing p with
  | nil => exact ⟨rfl, rfl⟩
  | cons t ts ih =>
    have hstep : render_triangles_attrib (t :: ts) p =
        render_triangles_attrib ts
          (render_triangle_attrib t.v1 t.v2 t.v3 t.d1 t.d2 t.d3 t.a1 t.a2 t.a3 p.1 p.2) := by
      simp [render_triangles_attrib]
    obtain ⟨gw, gh⟩ :=
      (render_triangle_attrib_dims t.v1 t.v2 t.v3 t.d1 t.d2 t.d3 t.a1 t.a2 t.a3 p.1 p.2).2.2
    have hhead := huncov t (List.mem_cons_self t ts)
    have htail : ∀ t2 ∈ ts,
        triCovers
          (render_triangle_attrib t.v1 t.v2 t.v3 t.d1 t.d2 t.d3 t.a1 t.a2 t.a3 p.1 p.2).2.width
          (render_triangle_attrib t.v1 t.v2 t.v3 t.d1 t.d2 t.d3 t.a1 t.a2 t.a3 p.1 p.2).2.height
          t2.v1 t2.v2 t2.v3 i j = false := by
      intro t2 ht2
      rw [gw, gh]
      exact huncov t2 (List.mem_cons_of_mem t ht2)
    obtain ⟨h1, h2⟩ := ih _ htail
    rw [hstep]
    constructor
    · rw [h1, render_triangle_attrib_fst_data, hhead]
      simp
    · rw [h2, render_triangle_attrib_snd_data, hhead]
      simp

/-! ### Claim theorems -/

/-- C1: rendering any finite sequence of depth triangles through
`render_triangle` into one buffer initialized to `+infinity` leaves, at every
pixel, exactly the minimum over the depths contributed at that pixel by the
triangles covering it (`+infinity` when no triangle covers it), and the final
buffer is pointwise invariant under any permutation of the submission order. -/
theorem C1_min_composition_permutation (W H : Nat) (ts ts2 : List Tri) (i j : Int)
    (hperm : ts.Perm ts2) :
    (render_triangles ts (initBuf W H)).data i j =
        minDepth (ts.filterMap (fun t => contrib W H t i j)) ∧
      (render_triangles ts (initBuf W H)).data i j =
        (render_triangles ts2 (initBuf W H)).data i j := by
  have hmain : ∀ (l : List Tri),
      (render_triangles l (initBuf W H)).data i j =
        minDepth (l.filterMap (fun t => contrib W H t i j)) := by
    intro l
    rw [render_triangles_data]
    rfl
  refine ⟨hmain ts, ?_⟩
  rw [hmain ts, hmain ts2]
  exact minDepth_perm (hperm.filterMap _)

/-- Witness for C1 at two concrete overlapping triangles submitted in both
orders into a 2×2 buffer. -/
theorem C1_witness :
    (render_triangles [exTri1, exTri2] (initBuf 2 2)).data 0 0 =
        minDepth ([exTri1, exTri2].filterMap (fun t => contrib 2 2 t 0 0)) ∧
      (render_triangles [exTri1, exTri2] (initBuf 2 2)).data 0 0 =
        (render_triangles [exTri2, exTri1] (initBuf 2 2)).data 0 0 :=
  C1_min_composition_permutation 2 2 [exTri1, exTri2] [exTri2, exTri1] 0 0
    (List.Perm.swap exTri2 exTri1 [])

/-- C2: all three `render_triangle` call shapes overwrite the depth buffer at a
covered pixel exactly when the interpolated depth is strictly below the stored
value (a stored `+infinity` always loses to a finite depth, last conjunct), and
the two-buffer shapes write the interpolated attribute, respectively the
constant fill value, into the paired buffer at exactly those pixels. -/
theorem C2_depth_test_discipline (v1 v2 v3 : Vec2) (d1 d2 d3 a1 a2 a3 value : ℚ)
    (depth_img img : ImageBuf) (i j : Int) :
    ((render_triangle v1 v2 v3 d1 d2 d3 depth_img).data i j =
      if triCovers depth_img.width depth_img.height v1 v2 v3 i j = true ∧
          EDouble.lt (.fin (planeEval v1 v2 v3 d1 d2 d3 (i : ℚ) (j : ℚ)))
            (depth_img.data i j) = true then
        .fin (planeEval v1 v2 v3 d1 d2 d3 (i : ℚ) (j : ℚ))
      else depth_img.data i j) ∧
    ((render_triangle_attrib v1 v2 v3 d1 d2 d3 a1 a2 a3 depth_img img).1.data i j =
      if triCovers img.width img.height v1 v2 v3 i j = true ∧
          EDouble.lt (.fin (planeEval v1 v2 v3 d1 d2 d3 (i : ℚ) (j : ℚ)))
            (depth_img.data i j) = true then
        .fin (planeEval v1 v2 v3 d1 d2 d3 (i : ℚ) (j : ℚ))
      else depth_img.data i j) ∧
    ((render_triangle_attrib v1 v2 v3 d1 d2 d3 a1 a2 a3 depth_img img).2.data i j =
      if triCovers img.width img.height v1 v2 v3 i j = true ∧
          EDouble.lt (.fin (planeEval v1 v2 v3 d1 d2 d3 (i : ℚ) (j : ℚ)))
            (depth_img.data i j) = true then
        .fin (planeEval v1 v2 v3 a1 a2 a3 (i : ℚ) (j : ℚ))
      else img.data i j) ∧
    ((render_triangle_fill v1 v2 v3 d1 d2 d3 value depth_img img).1.data i j =
      if triCovers img.width img.height v1 v2 v3 i j = true ∧
          EDouble.lt (.fin (planeEval v1 v2 v3 d1 d2 d3 (i : ℚ) (j : ℚ)))
            (depth_img.data i j) = true then
        .fin (planeEval v1 v2 v3 d1 d2 d3 (i : ℚ) (j : ℚ))
      else depth_img.data i j) ∧
    ((render_triangle_fill v1 v2 v3 d1 d2 d3 value depth_img img).2.data i j =
      if triCovers img.width img.height v1 v2 v3 i j = true ∧
          EDouble.lt (.fin (planeEval v1 v2 v3 d1 d2 d3 (i : ℚ) (j : ℚ)))
            (depth_img.data i j) = true then
        .fin value
      else img.data i j) ∧
    EDouble.lt (.fin (planeEval v1 v2 v3 d1 d2 d3 (i : ℚ) (j : ℚ))) .inf = true := by
  refine ⟨?_, ?_, ?_, ?_, ?_, rfl⟩
  · rw [render_triangle_data, ite_dmin_eq]
  · rw [render_triangle_attrib_fst_data, ite_dmin_eq]
  · rw [render_triangle_attrib_snd_data]
  · rw [render_triangle_fill_fst_data, ite_dmin_eq]
  · rw [render_triangle_fill_snd_data]

/-- C4: for a triangle whose three 2D vertices are not collinear (non-zero
screen-space area), the plane `attribute = A·x + B·y + C` built by
`render_triangle` from the edge-vector cross product reproduces exactly the
attribute supplied at each of the three vertices (exact over ℚ, hence within
any floating-point tolerance). -/
theorem C4_plane_exactness (v1 v2 v3 : Vec2) (a1 a2 a3 : ℚ)
    (hnz : (v2.x - v1.x) * (v3.y - v1.y) - (v2.y - v1.y) * (v3.x - v1.x) ≠ 0) :
    planeEval v1 v2 v3 a1 a2 a3 v1.x v1.y = a1 ∧
    planeEval v1 v2 v3 a1 a2 a3 v2.x v2.y = a2 ∧
    planeEval v1 v2 v3 a1 a2 a3 v3.x v3.y = a3 := by
  refine ⟨?_, ?_, ?_⟩ <;>
  · simp only [planeEval, planeA, planeB, planeC, plane_n, V3.cross]
    field_simp
    ring

/-- Witness for C4 at the concrete non-degenerate triangle
`(0,0), (1,0), (0,1)` with attribute values `5, 7, 9`. -/
theorem C4_witness :
    planeEval ⟨0, 0⟩ ⟨1, 0⟩ ⟨0, 1⟩ 5 7 9 (Vec2.mk 0 0).x (Vec2.mk 0 0).y = 5 ∧
    planeEval ⟨0, 0⟩ ⟨1, 0⟩ ⟨0, 1⟩ 5 7 9 (Vec2.mk 1 0).x (Vec2.mk 1 0).y = 7 ∧
    planeEval ⟨0, 0⟩ ⟨1, 0⟩ ⟨0, 1⟩ 5 7 9 (Vec2.mk 0 1).x (Vec2.mk 0 1).y = 9 :=
  C4_plane_exactness ⟨0, 0⟩ ⟨1, 0⟩ ⟨0, 1⟩ 5 7 9 (by norm_num)

/-- C10: every `render_triangle` variant changes the depth and paired buffers
only at coordinates inside `[0, width) × [0, height)` of the image whose
dimensions the scanline loop tests (the depth image for the depth-only shape,
the output image for the two-buffer shapes): rows outside the image are
skipped, column spans are clamped to `[0, width-1]`, so every pixel outside
those bounds is left untouched for any triangle, on-screen or off-screen. -/
theorem C10_offscreen_clamped (v1 v2 v3 : Vec2) (d1 d2 d3 a1 a2 a3 value : ℚ)
    (depth_img img : ImageBuf) (i j : Int) :
    (¬(0 ≤ i ∧ i < (depth_img.width : Int) ∧ 0 ≤ j ∧ j < (depth_img.height : Int)) →
      (render_triangle v1 v2 v3 d1 d2 d3 depth_img).data i j = depth_img.data i j) ∧
    (¬(0 ≤ i ∧ i < (img.width : Int) ∧ 0 ≤ j ∧ j < (img.height : Int)) →
      ((render_triangle_attrib v1 v2 v3 d1 d2 d3 a1 a2 a3 depth_img img).1.data i j =
          depth_img.data i j ∧
        (render_triangle_attrib v1 v2 v3 d1 d2 d3 a1 a2 a3 depth_img img).2.data i j =
          img.data i j ∧
        (render_triangle_fill v1 v2 v3 d1 d2 d3 value depth_img img).1.data i j =
          depth_img.data i j ∧
        (render_triangle_fill v1 v2 v3 d1 d2 d3 value depth_img img).2.data i j =
          img.data i j)) := by
  constructor
  · intro hout
    rw [render_triangle_data, triCovers_false_of_out _ _ _ _ _ _ _ hout]
    simp
  · intro hout
    have hc := triCovers_false_of_out img.width img.height v1 v2 v3 i j hout
    refine ⟨?_, ?_, ?_, ?_⟩
    · rw [render_triangle_attrib_fst_data, hc]
      simp
    · rw [render_triangle_attrib_snd_data, hc]
      simp
    · rw [render_triangle_fill_fst_data, hc]
      simp
    · rw [render_triangle_fill_snd_data, hc]
      simp

/-- C5: for a triangular mesh, `render_mesh_depth_map` rasterizes each face
with per-vertex depths `-1/camera.depth(vertex)` (built into `meshTris` /
`depthTri`) and returns, at every pixel, the post-transform `d ↦ -1/d` of the
minimum encoded depth contributed there, with `+infinity` left unchanged
(`invLambda` is exactly the code's transform lambda). -/
theorem C5_depth_reciprocal_encoding (mesh : Mesh) (camera : Camera) (i j : Int)
    (hreg : mesh.regularity = 3) :
    (render_mesh_depth_map mesh camera).1.data i j =
      invLambda (minDepth ((meshTris mesh camera).filterMap
        (fun t => contrib camera.image_width camera.image_height t i j))) := by
  have h1 : (render_mesh_depth_map mesh camera).1 =
      transform_image invLambda (render_triangles (meshTris mesh camera)
        (initBuf camera.image_width camera.image_height)) := by
    unfold render_mesh_depth_map
    rw [if_pos hreg]
  rw [h1, transform_image_data, render_triangles_data]
  rfl

/-- Witness for C5 at a concrete one-triangle mesh and camera. -/
theorem C5_witness :
    (render_mesh_depth_map exMesh exCam).1.data 0 0 =
      invLambda (minDepth ((meshTris exMesh exCam).filterMap
        (fun t => contrib exCam.image_width exCam.image_height t 0 0))) :=
  C5_depth_reciprocal_encoding exMesh exCam 0 0 rfl

/-- C6: a mesh whose faces are not uniformly triangular (`regularity ≠ 3`)
makes both `render_mesh_depth_map` and `render_mesh_height_map` report the
"mesh has to be triangular" error (`true` flag) and rasterize nothing: the
returned buffer is exactly the freshly initialized all-`+infinity` buffer, not
a corrupted partial one. -/
theorem C6_nontriangular_error (mesh : Mesh) (camera : Camera)
    (hreg : mesh.regularity ≠ 3) :
    render_mesh_depth_map mesh camera =
        (initBuf camera.image_width camera.image_height, true) ∧
      render_mesh_height_map mesh camera =
        (initBuf camera.image_width camera.image_height, true) ∧
      (∀ i j : Int, (render_mesh_depth_map mesh camera).1.data i j = .inf) ∧
      (∀ i j : Int, (render_mesh_height_map mesh camera).1.data i j = .inf) := by
  have h1 : render_mesh_depth_map mesh camera =
      (initBuf camera.image_width camera.image_height, true) := by
    unfold render_mesh_depth_map
    rw [if_neg hreg]
  have h2 : render_mesh_height_map mesh camera =
      (initBuf camera.image_width camera.image_height, true) := by
    unfold render_mesh_height_map
    rw [if_neg hreg]
  exact ⟨h1, h2, fun i j => by rw [h1]; rfl, fun i j => by rw [h2]; rfl⟩

/-- Witness for C6 at a concrete quad mesh (`regularity = 4`). -/
theorem C6_witness :
    render_mesh_depth_map exMeshQuad exCam =
        (initBuf exCam.image_width exCam.image_height, true) ∧
      render_mesh_height_map exMeshQuad exCam =
        (initBuf exCam.image_width exCam.image_height, true) := by
  have h := C6_nontriangular_error exMeshQuad exCam (by decide)
  exact ⟨h.1, h.2.1⟩

/-- C3: pixels covered by no rendered triangle keep the `+infinity` sentinel:
after `render_mesh_depth_map`, after `render_mesh_height_map` (both camera
branches), after any sequence of depth-only `render_triangle` calls on a fresh
buffer, and after any sequence of two-buffer calls, in the depth buffer and in
the paired attribute buffer alike. -/
theorem C3_sentinel_uncovered (mesh : Mesh) (camera : Camera) (i j : Int)
    (hreg : mesh.regularity = 3)
    (huncov : ∀ f ∈ mesh.faces,
      triCovers camera.image_width camera.image_height
        (projAt mesh camera (faceVert f 0)) (projAt mesh camera (faceVert f 1))
        (projAt mesh camera (faceVert f 2)) i j = false) :
    (render_mesh_depth_map mesh camera).1.data i j = .inf ∧
    (render_mesh_height_map mesh camera).1.data i j = .inf ∧
    (∀ (W H : Nat) (ts : List Tri),
      (∀ t ∈ ts, triCovers W H t.v1 t.v2 t.v3 i j = false) →
      (render_triangles ts (initBuf W H)).data i j = .inf) ∧
    (∀ (W H : Nat) (ts : List TriA),
      (∀ t ∈ ts, triCovers W H t.v1 t.v2 t.v3 i j = false) →
      (render_triangles_attrib ts (initBuf W H, initBuf W H)).1.data i j = .inf ∧
      (render_triangles_attrib ts (initBuf W H, initBuf W H)).2.data i j = .inf) := by
  have hgen : ∀ (W H : Nat) (ts : List Tri),
      (∀ t ∈ ts, triCovers W H t.v1 t.v2 t.v3 i j = false) →
      (render_triangles ts (initBuf W H)).data i j = .inf := by
    intro W H ts hts
    rw [render_triangles_data]
    simp only [initBuf]
    have hnil : ts.filterMap (fun t => contrib W H t i j) = [] := by
      rw [List.filterMap_eq_nil_iff]
      intro t ht
      unfold contrib
      rw [hts t ht]
      simp
    rw [hnil]
    rfl
  have hdep : (render_mesh_depth_map mesh camera).1.data i j = .inf := by
    have h1 : (render_mesh_depth_map mesh camera).1 =
        transform_image invLambda (render_triangles (meshTris mesh camera)
          (initBuf camera.image_width camera.image_height)) := by
      unfold render_mesh_depth_map
      rw [if_pos hreg]
    rw [h1, transform_image_data]
    rw [hgen camera.image_width camera.image_height (meshTris mesh camera) ?hts]
    case hts =>
      intro t ht
      obtain ⟨f, hf, rfl⟩ := List.mem_map.mp ht
      exact huncov f hf
    rfl
  have hhei : (render_mesh_height_map mesh camera).1.data i j = .inf := by
    have h1 : render_mesh_height_map mesh camera =
        (if camera.isPerspective then
          (depth_map_to_height_map camera (render_mesh_depth_map mesh camera).1, false)
        else
          (transform_image negLambda
            (render_triangles (meshTrisH mesh camera)
              (initBuf camera.image_width camera.image_height)), false)) := by
      unfold render_mesh_height_map
      rw [if_pos hreg]
    rw [h1]
    by_cases hp : camera.isPerspective = true
    · rw [if_pos hp]
      show (depth_map_to_height_map camera (render_mesh_depth_map mesh camera).1).data i j
        = .inf
      unfold depth_map_to_height_map
      simp only [hdep]
    · rw [if_neg hp]
      show (transform_image negLambda (render_triangles (meshTrisH mesh camera)
        (initBuf camera.image_width camera.image_height))).data i j = .inf
      rw [transform_image_data]
      rw [hgen camera.image_width camera.image_height (meshTrisH mesh camera) ?hts2]
      case hts2 =>
        intro t ht
        obtain ⟨f, hf, rfl⟩ := List.mem_map.mp ht
        exact huncov f hf
      rfl
  have hpair : ∀ (W H : Nat) (ts : List TriA),
      (∀ t ∈ ts, triCovers W H t.v1 t.v2 t.v3 i j = false) →
      (render_triangles_attrib ts (initBuf W H, initBuf W H)).1.data i j = .inf ∧
      (render_triangles_attrib ts (initBuf W H, initBuf W H)).2.data i j = .inf := by
    intro W H ts hts
    exact render_triangles_attrib_uncov ts (initBuf W H, initBuf W H) i j hts
  exact ⟨hdep, hhei, hgen, hpair⟩

/-- Witness for C3 at a concrete triangular mesh with no faces, where no pixel
is covered. -/
theorem C3_witness :
    (render_mesh_depth_map exMeshEmpty exCam).1.data 0 0 = .inf ∧
      (render_mesh_height_map exMeshEmpty exCam).1.data 0 0 = .inf := by
  have h := C3_sentinel_uncovered exMeshEmpty exCam 0 0 rfl
    (by intro f hf; exact absurd hf (List.not_mem_nil f))
  exact ⟨h.1, h.2.1⟩

/-- Counterexample to C7 as stated: at a concrete camera whose projection block
has a non-trivial third row, `depth_map_to_height_map` (which takes `v` as row
2 of `M⁻¹`) disagrees at pixel `(0,0)` with the spec sentence's formula
`v = M⁻¹ · row2(M)` (the matrix-vector product). -/
theorem C7_counterexample :
    (depth_map_to_height_map cexCam cexDepth).data 0 0 ≠
      (spec_depth_map_to_height_map cexCam cexDepth).data 0 0 := by
  simp only [depth_map_to_height_map, spec_depth_map_to_height_map, cexCam, cexDepth,
    specDirV, Mat3.inv, Mat3.det, Mat3.row2, Mat3.mulVec, dot3, neg3, origin3]
  norm_num

/-- C7 (amended): `depth_map_to_height_map` produces a buffer of the same
dimensions whose every finite pixel `(i, j)` with depth `d` is mapped to
`d · (v · [i, j, 1]) + o` with `o = v · (-P.col(3))` and `v` the THIRD ROW
(index 2) of `M⁻¹` — not the product `M⁻¹ · row2(M)` — while infinite depths
propagate unchanged; for invertible `M` this `v` is the unique solution of
`vᵀ · M = (0, 0, 1)`. -/
theorem C7_height_formula_amended (camera : Camera) (depth_map : ImageBuf) (i j : Int)
    (hdet : camera.P3.det ≠ 0) :
    (depth_map_to_height_map camera depth_map).width = depth_map.width ∧
    (depth_map_to_height_map camera depth_map).height = depth_map.height ∧
    ((Mat3.vecMul camera.P3.inv.row2 camera.P3).1 = 0 ∧
      (Mat3.vecMul camera.P3.inv.row2 camera.P3).2.1 = 0 ∧
      (Mat3.vecMul camera.P3.inv.row2 camera.P3).2.2 = 1) ∧
    (depth_map_to_height_map camera depth_map).data i j =
      (match depth_map.data i j with
        | .inf => .inf
        | .fin d => .fin (d * dot3 camera.P3.inv.row2 ((i : ℚ), (j : ℚ), 1)
            + dot3 camera.P3.inv.row2 (neg3 camera.pcol3))) := by
  refine ⟨rfl, rfl, ?_, rfl⟩
  have hd : Mat3.det camera.P3 ≠ 0 := hdet
  unfold Mat3.det at hd
  refine ⟨?_, ?_, ?_⟩ <;>
  · simp only [Mat3.vecMul, Mat3.inv, Mat3.row2, Mat3.det]
    field_simp
    ring

/-- Witness for the amended C7 at a concrete invertible camera matrix. -/
theorem C7_witness :
    (Mat3.vecMul cexCam.P3.inv.row2 cexCam.P3).1 = 0 ∧
      (Mat3.vecMul cexCam.P3.inv.row2 cexCam.P3).2.1 = 0 ∧
      (Mat3.vecMul cexCam.P3.inv.row2 cexCam.P3).2.2 = 1 :=
  (C7_height_formula_amended cexCam cexDepth 0 0 (by norm_num [cexCam, Mat3.det])).2.2.1

/-- C9: degenerate geometry is harmless.  A 2D triangle with collinear vertices
(zero screen-space area, zero cross-product z) makes every `render_triangle`
variant return its buffers unchanged (it contributes nothing and propagates no
plane coefficients into any buffer), a zero barycentric denominator makes
`barycentric` leave its in/out parameters untouched so the texel sentinel
`(-1, -1)` is rejected, and a degenerate face in a submission list does not
disturb the rendering of the remaining faces. -/
theorem C9_degenerate_guarded (v1 v2 v3 : Vec2) (d1 d2 d3 a1 a2 a3 value u v x y : ℚ)
    (img depth_img img2 : ImageBuf) (p0 p1 p2 : Vec2)
    (hcol : (v2.x - v1.x) * (v3.y - v1.y) - (v2.y - v1.y) * (v3.x - v1.x) = 0)
    (hden : baryDenom p0 p1 p2 = 0) :
    render_triangle v1 v2 v3 d1 d2 d3 img = img ∧
    render_triangle_attrib v1 v2 v3 d1 d2 d3 a1 a2 a3 depth_img img2 = (depth_img, img2) ∧
    render_triangle_fill v1 v2 v3 d1 d2 d3 value depth_img img2 = (depth_img, img2) ∧
    barycentric u v x y p0 p1 p2 = (u, v) ∧
    texelAccept x y p0 p1 p2 = false ∧
    (∀ (ts1 ts2 : List Tri) (buf : ImageBuf),
      render_triangles
          (ts1 ++ { v1 := v1, v2 := v2, v3 := v3, d1 := d1, d2 := d2, d3 := d3 } :: ts2)
          buf =
        render_triangles (ts1 ++ ts2) buf) := by
  refine ⟨render_triangle_collinear v1 v2 v3 d1 d2 d3 img hcol,
    render_triangle_attrib_collinear v1 v2 v3 d1 d2 d3 a1 a2 a3 depth_img img2 hcol,
    render_triangle_fill_collinear v1 v2 v3 d1 d2 d3 value depth_img img2 hcol,
    ?_, ?_, ?_⟩
  · simp [barycentric, hden]
  · rw [texelAccept]
    rw [barycentric, if_pos hden]
    norm_num
  · intro ts1 ts2 buf
    show List.foldl _ buf _ = List.foldl _ buf _
    rw [List.foldl_append, List.foldl_append, List.foldl_cons]
    dsimp only
    rw [render_triangle_collinear v1 v2 v3 d1 d2 d3 _ hcol]

/-- Witness for C9 at a concrete collinear triangle and a concrete degenerate
UV triangle. -/
theorem C9_witness :
    render_triangle ⟨0, 0⟩ ⟨1, 1⟩ ⟨2, 2⟩ 1 2 3 (initBuf 4 4) = initBuf 4 4 ∧
      texelAccept 0 0 ⟨0, 0⟩ ⟨0, 0⟩ ⟨0, 0⟩ = false := by
  have h := C9_degenerate_guarded ⟨0, 0⟩ ⟨1, 1⟩ ⟨2, 2⟩ 1 2 3 0 0 0 0 0 0 0 0
    (initBuf 4 4) (initBuf 4 4) (initBuf 4 4) ⟨0, 0⟩ ⟨0, 0⟩ ⟨0, 0⟩
    (by norm_num) (by norm_num [baryDenom])
  exact ⟨h.1, h.2.2.2.2.1⟩

/-- C8: for a non-degenerate UV triangle, a texel is accepted exactly when its
computed barycentric coordinates satisfy `u ∈ [0,1]`, `v ∈ [0,1]`, `u+v ≤ 1`;
those coordinates genuinely reconstruct the texel as
`u·p0 + v·p1 + (1-u-v)·p2`; and every accepted texel's back-projection
`(1-u-v)·c0 + v·c1 + u·c2` is a convex combination of the face's three 3D
corners (nonnegative weights summing to 1) and lies in their convex hull. -/
theorem C8_barycentric_convex (x y : ℚ) (p0 p1 p2 : Vec2) (c0 c1 c2 : Pt3)
    (hden : baryDenom p0 p1 p2 ≠ 0) :
    ∀ u v : ℚ, barycentric (-1) (-1) x y p0 p1 p2 = (u, v) →
      ((texelAccept x y p0 p1 p2 = true ↔
          (0 ≤ u ∧ u ≤ 1 ∧ 0 ≤ v ∧ v ≤ 1 ∧ u + v ≤ 1)) ∧
        (u * p0.x + v * p1.x + (1 - u - v) * p2.x = x ∧
          u * p0.y + v * p1.y + (1 - u - v) * p2.y = y) ∧
        (texelAccept x y p0 p1 p2 = true →
          0 ≤ 1 - u - v ∧ 0 ≤ v ∧ 0 ≤ u ∧ (1 - u - v) + v + u = 1 ∧
          backproject u v c0 c1 c2 ∈ convexHull ℚ ({c0, c1, c2} : Set Pt3))) := by
  intro u v huv
  have hacc : texelAccept x y p0 p1 p2 = true ↔
      (0 ≤ u ∧ u ≤ 1 ∧ 0 ≤ v ∧ v ≤ 1 ∧ u + v ≤ 1) := by
    rw [texelAccept, huv]
    simp
  have hrec : u * p0.x + v * p1.x + (1 - u - v) * p2.x = x ∧
      u * p0.y + v * p1.y + (1 - u - v) * p2.y = y := by
    rw [barycentric, if_neg hden] at huv
    simp only [Prod.mk.injEq] at huv
    obtain ⟨hu, hv⟩ := huv
    subst hu
    subst hv
    constructor <;>
    · simp only [baryDenom] at hden ⊢
      field_simp
      ring
  refine ⟨hacc, hrec, ?_⟩
  intro ha
  obtain ⟨h1, h2, h3, h4, h5⟩ := hacc.mp ha
  refine ⟨by linarith, h3, h1, by ring, ?_⟩
  have hw0 : ∀ t ∈ (Finset.univ : Finset (Fin 3)), 0 ≤ (![1 - u - v, v, u]) t := by
    intro t _
    fin_cases t <;> simp <;> linarith
  have hsum : ∑ t : Fin 3, (![1 - u - v, v, u]) t = 1 := by
    rw [Fin.sum_univ_three]
    simp
  have hws : 0 < ∑ t : Fin 3, (![1 - u - v, v, u]) t := by
    rw [hsum]
    norm_num
  have hz : ∀ t ∈ (Finset.univ : Finset (Fin 3)),
      (![c0, c1, c2]) t ∈ ({c0, c1, c2} : Set Pt3) := by
    intro t _
    fin_cases t <;> simp
  have hcm := Finset.centerMass_mem_convexHull Finset.univ hw0 hws hz
  have hbp : (Finset.univ : Finset (Fin 3)).centerMass (![1 - u - v, v, u]) (![c0, c1, c2]) =
      backproject u v c0 c1 c2 := by
    rw [Finset.centerMass, hsum]
    simp [Fin.sum_univ_three, backproject]
  rw [← hbp]
  exact hcm

/-- Witness for C8 at the concrete UV triangle `(0,0), (1,0), (0,1)` and texel
`(1/4, 1/4)`, whose barycentric coordinates are `(1/2, 1/4)`. -/
theorem C8_witness :
    (1 / 2 : ℚ) * (Vec2.mk 0 0).x + (1 / 4 : ℚ) * (Vec2.mk 1 0).x +
        (1 - 1 / 2 - 1 / 4) * (Vec2.mk 0 1).x = 1 / 4 ∧
      (1 / 2 : ℚ) * (Vec2.mk 0 0).y + (1 / 4 : ℚ) * (Vec2.mk 1 0).y +
        (1 - 1 / 2 - 1 / 4) * (Vec2.mk 0 1).y = 1 / 4 :=
  (C8_barycentric_convex (1 / 4) (1 / 4) ⟨0, 0⟩ ⟨1, 0⟩ ⟨0, 1⟩ (0, 0, 0) (1, 0, 0) (0, 1, 0)
    (by norm_num [baryDenom]) (1 / 2) (1 / 4)
    (by norm_num [barycentric, baryDenom, Prod.mk.injEq])).2.1
